import Mathlib

/-!
Verification of the auth blueprint (`src/auth.py`): two HTTP handlers,
`login` and `signup`, over a single SQLite table `users(email UNIQUE,
password)`, with password hashing and verification delegated to an external
library (flask_bcrypt) and token issuance delegated to an external JWT
library.

The embedding translates the two handlers into pure Lean functions over an
explicit database state (a list of rows).  Connection open/close and token
issuance are recorded in an event trace; exceptions that the handlers let
propagate are modelled with `Except`.
-/

namespace Auth

/-- The HTTP methods Flask routes to each handler: POST and OPTIONS. -/
inductive Method where
  | POST
  | OPTIONS
  deriving DecidableEq

/-- Exceptions that can propagate out of a handler (neither handler has a
generic `except` clause; `signup` catches only `sqlite3.IntegrityError`).
`badRequest` is the parse failure raised inside `request.get_json()`;
`typeError` is the error the external hashing library raises when it is
handed a missing (`None`) password. -/
inductive Exn where
  | badRequest
  | typeError
  deriving DecidableEq

/-- The credentials the handlers pull out of the JSON body:
the username and password fields read off the parsed dictionary with
`dict.get`.  `Option` models the `None` that `dict.get` returns for an
absent field. -/
structure Creds where
  username : Option String
  password : Option String
  deriving DecidableEq

/-- An incoming HTTP request to one of the two routes.  `body` is the outcome
of `request.get_json()` followed by the two `.get` calls: either the parsed
credentials, or the exception a malformed body raises. -/
structure Request where
  method : Method
  body : Except Exn Creds

/-- The token produced by `create_access_token(identity=username)`: the only
observable the code binds into it is the identity. -/
structure Token where
  identity : Option String
  deriving DecidableEq

/-- The JSON bodies the two handlers can produce. -/
inductive RespBody where
  | statusOk
  | accessToken (token : Token)
  | invalidCredentials
  | userCreated
  | userExists
  deriving DecidableEq

/-- An HTTP response: body plus numeric status code. -/
structure Response where
  body : RespBody
  status : Nat
  deriving DecidableEq

/-- One row of the `users` table.  `email` is `Option` because SQLite lets the
handlers insert a `NULL` email (the column is only declared UNIQUE). -/
structure Row where
  email : Option String
  password : String
  deriving DecidableEq

/-- The `users` table, in insertion order. -/
abbrev DB := List Row

/-- Observable side effects of a handler run: storage connection lifecycle
(`sqlite3.connect` / `conn.close()`) and token issuance
(`create_access_token`), in chronological order. -/
inductive Event where
  | openConn
  | closeConn
  | issueToken (identity : Option String)
  deriving DecidableEq

/-- The complete outcome of one handler invocation: the response (or the
exception that propagated), the users table afterwards, and the event
trace. -/
structure HandlerOut where
  resp : Except Exn Response
  db : DB
  trace : List Event

/-- The external hashing library (flask_bcrypt), kept opaque as the spec
describes it: a hash generator and a verification predicate on strings. -/
structure HashLib where
  gen : String → String
  check : String → String → Bool

/-- `bcrypt.generate_password_hash(password)`: delegates to the library on a
string, raises when handed a missing (`None`) password. -/
def genPasswordHash (hl : HashLib) (password : Option String) : Except Exn String :=
  match password with
  | none => .error .typeError
  | some p => .ok (hl.gen p)

/-- `bcrypt.check_password_hash(stored, password)`: delegates to the library
on a string, raises when handed a missing (`None`) password. -/
def checkPasswordHash (hl : HashLib) (stored : String) (password : Option String) :
    Except Exn Bool :=
  match password with
  | none => .error .typeError
  | some p => .ok (hl.check stored p)

/-- `SELECT password FROM users WHERE email = ?` followed by `fetchone()`:
the stored hash of the first row whose email equals the parameter.  A `NULL`
parameter matches no row (SQL equality with NULL is never true), and rows
with `NULL` email are never matched. -/
def lookupPassword (username : Option String) (db : DB) : Option String :=
  match username with
  | none => none
  | some u => (db.find? (fun r => r.email == some u)).map Row.password

/-- `INSERT INTO users (email, password) VALUES (?, ?)` under the UNIQUE
constraint on `email`: SQLite raises `IntegrityError` exactly when the new
email is non-NULL and equals an existing non-NULL email; `NULL` emails never
conflict.  On success the row is appended. -/
def insertUser (username : Option String) (hashed : String) (db : DB) : Except Unit DB :=
  match username with
  | none => .ok (db ++ [⟨none, hashed⟩])
  | some u =>
    match db.find? (fun r => r.email == some u) with
    | some _ => .error ()
    | none => .ok (db ++ [⟨some u, hashed⟩])

/-- The `/login` handler.  OPTIONS returns `200 {status: "ok"}` before any
storage access.  Otherwise the body is parsed (a parse failure propagates),
a connection is opened, the stored hash is fetched by email, the connection
is closed, and then the hash check decides between a token response and
`401 Invalid credentials`.  The connection is closed before the hash check,
so even a check that raises leaves a balanced trace. -/
def login (hl : HashLib) (req : Request) (db : DB) : HandlerOut :=
  match req.method with
  | .OPTIONS => ⟨.ok ⟨.statusOk, 200⟩, db, []⟩
  | .POST =>
    match req.body with
    | .error e => ⟨.error e, db, []⟩
    | .ok creds =>
      match lookupPassword creds.username db with
      | none => ⟨.ok ⟨.invalidCredentials, 401⟩, db, [.openConn, .closeConn]⟩
      | some stored =>
        match checkPasswordHash hl stored creds.password with
        | .error e => ⟨.error e, db, [.openConn, .closeConn]⟩
        | .ok true =>
            ⟨.ok ⟨.accessToken ⟨creds.username⟩, 200⟩, db,
              [.openConn, .closeConn, .issueToken creds.username]⟩
        | .ok false => ⟨.ok ⟨.invalidCredentials, 401⟩, db, [.openConn, .closeConn]⟩

/-- The `/signup` handler.  OPTIONS returns `200 {status: "ok"}` before any
storage access.  Otherwise the body is parsed and the password hashed (both
failures propagate, before any connection exists); then a connection is
opened and the insert attempted.  On success the handler commits, closes the
connection and returns 201.  On `IntegrityError` the `except` clause returns
409 directly: `conn.close()` is on the `try` path only, so the trace of the
conflict path holds the open with no matching close. -/
def signup (hl : HashLib) (req : Request) (db : DB) : HandlerOut :=
  match req.method with
  | .OPTIONS => ⟨.ok ⟨.statusOk, 200⟩, db, []⟩
  | .POST =>
    match req.body with
    | .error e => ⟨.error e, db, []⟩
    | .ok creds =>
      match genPasswordHash hl creds.password with
      | .error e => ⟨.error e, db, []⟩
      | .ok hashed =>
        match insertUser creds.username hashed db with
        | .ok db' => ⟨.ok ⟨.userCreated, 201⟩, db', [.openConn, .closeConn]⟩
        | .error _ => ⟨.ok ⟨.userExists, 409⟩, db, [.openConn]⟩

/-- A request directed at one of the two routes. -/
inductive Op where
  | loginReq (req : Request)
  | signupReq (req : Request)

/-- The users-table state after dispatching one request. -/
def step (hl : HashLib) (db : DB) (op : Op) : DB :=
  match op with
  | .loginReq req => (login hl req db).db
  | .signupReq req => (signup hl req db).db

/-- The users-table state after a sequence of requests. -/
def run (hl : HashLib) (db : DB) (ops : List Op) : DB :=
  ops.foldl (step hl) db

/-- Identifier uniqueness: the non-NULL emails of the table are pairwise
distinct (this is what the UNIQUE constraint guarantees; NULLs are exempt). -/
def uniqueEmails (db : DB) : Prop :=
  (db.filterMap Row.email).Nodup

/-- The credentials submitted verify against the table: some row is found by
the identifier and the external check accepts the submitted secret against
the stored hash of that row. -/
def authOk (hl : HashLib) (c : Creds) (db : DB) : Prop :=
  ∃ stored p, lookupPassword c.username db = some stored ∧
    c.password = some p ∧ hl.check stored p = true

/-- A concrete stand-in hashing library used only to instantiate theorems at
concrete inputs. -/
def testHash : HashLib :=
  ⟨fun p => "H" ++ p, fun stored p => stored == "H" ++ p⟩

/-! ### Helper lemmas shared by the claim theorems -/

theorem login_db_eq (hl : HashLib) (req : Request) (db : DB) : (login hl req db).db = db := by
  rcases req with ⟨m, b⟩
  cases m <;> cases b <;> simp only [login]
  case POST.ok creds =>
    split
    · rfl
    · split <;> rfl

theorem login_options_eq (hl : HashLib) (req : Request) (db : DB) (h : req.method = .OPTIONS) :
    login hl req db = ⟨.ok ⟨.statusOk, 200⟩, db, []⟩ := by
  rcases req with ⟨m, b⟩
  cases h
  rfl

theorem signup_options_eq (hl : HashLib) (req : Request) (db : DB) (h : req.method = .OPTIONS) :
    signup hl req db = ⟨.ok ⟨.statusOk, 200⟩, db, []⟩ := by
  rcases req with ⟨m, b⟩
  cases h
  rfl

theorem lookupPassword_append_self (u hp : String) (db : DB)
    (h : lookupPassword (some u) db = none) :
    lookupPassword (some u) (db ++ [⟨some u, hp⟩]) = some hp := by
  have hf : db.find? (fun r => r.email == some u) = none := by
    unfold lookupPassword at h
    exact Option.map_eq_none'.mp h
  show ((db ++ [(⟨some u, hp⟩ : Row)]).find? (fun r => r.email == some u)).map Row.password = some hp
  rw [List.find?_append, hf]
  simp [List.find?]

theorem email_not_mem_of_find_none (u : String) (db : DB)
    (h : db.find? (fun r => r.email == some u) = none) :
    u ∉ db.filterMap Row.email := by
  intro hmem
  rcases List.mem_filterMap.mp hmem with ⟨r, hr, he⟩
  have hne := List.find?_eq_none.mp h r hr
  simp [he] at hne

theorem uniqueEmails_append_some (u hp : String) (db : DB)
    (hu : uniqueEmails db) (h : db.find? (fun r => r.email == some u) = none) :
    uniqueEmails (db ++ [⟨some u, hp⟩]) := by
  unfold uniqueEmails at hu ⊢
  rw [List.filterMap_append, List.nodup_append]
  refine ⟨hu, by simp, ?_⟩
  intro a ha hb
  simp [List.filterMap] at hb
  exact email_not_mem_of_find_none u db h (hb ▸ ha)

theorem uniqueEmails_append_null (hp : String) (db : DB) (hu : uniqueEmails db) :
    uniqueEmails (db ++ [⟨none, hp⟩]) := by
  unfold uniqueEmails at hu ⊢
  rw [List.filterMap_append]
  simpa using hu

theorem signup_preserves_uniqueEmails (hl : HashLib) (req : Request) (db : DB)
    (hu : uniqueEmails db) : uniqueEmails ((signup hl req db).db) := by
  rcases req with ⟨m, b⟩
  cases m <;> cases b <;> simp only [signup]
  case POST.error e => exact hu
  case OPTIONS.error e => exact hu
  case OPTIONS.ok creds => exact hu
  case POST.ok creds =>
    rcases creds with ⟨cu, cp⟩
    split
    · exact hu
    · rename_i hashed hgen
      split
      · rename_i db' heq
        cases cu with
        | none =>
          simp only [insertUser] at heq
          injection heq with h
          subst h
          exact uniqueEmails_append_null hashed db hu
        | some u =>
          simp only [insertUser] at heq
          split at heq
          · exact Except.noConfusion heq
          · rename_i hfind
            injection heq with h
            subst h
            exact uniqueEmails_append_some u hashed db hu hfind
      · exact hu

theorem step_preserves_uniqueEmails (hl : HashLib) (db : DB) (op : Op)
    (hu : uniqueEmails db) : uniqueEmails (step hl db op) := by
  cases op with
  | loginReq req =>
    simp only [step]
    rw [login_db_eq]
    exact hu
  | signupReq req => exact signup_preserves_uniqueEmails hl req db hu

theorem find_email_isSome_of_mem (u : String) (db : DB) (r : Row) (hr : r ∈ db)
    (he : r.email = some u) : (db.find? (fun row => row.email == some u)).isSome = true := by
  rw [List.find?_isSome]
  exact ⟨r, hr, by simp [he]⟩

theorem run_preserves_uniqueEmails (hl : HashLib) (ops : List Op) :
    ∀ db : DB, uniqueEmails db → uniqueEmails (run hl db ops) := by
  induction ops with
  | nil => exact fun db h => h
  | cons op rest ih =>
    intro db h
    exact ih (step hl db op) (step_preserves_uniqueEmails hl db op h)

/-! ### Claim theorems -/

/-- C9: Login never modifies the users table: for every login request (any
method, any credentials, success or failure), the users-table state after the
operation equals the state before it; login only reads. -/
theorem login_never_writes (hl : HashLib) (req : Request) (db : DB) :
    (login hl req db).db = db :=
  login_db_eq hl req db

/-- C5: For every OPTIONS request on either route, the response is 200 with
body status-ok, the users table is unchanged, and no storage connection is
opened (the trace is empty: the handler returns before any database
access). -/
theorem options_ok_without_storage (hl : HashLib) (req : Request) (db : DB)
    (h : req.method = .OPTIONS) :
    login hl req db = ⟨.ok ⟨.statusOk, 200⟩, db, []⟩ ∧
    signup hl req db = ⟨.ok ⟨.statusOk, 200⟩, db, []⟩ :=
  ⟨login_options_eq hl req db h, signup_options_eq hl req db h⟩

/-- Witness for C5 at a concrete OPTIONS request. -/
theorem options_ok_without_storage_witness :
    login testHash ⟨.OPTIONS, .ok ⟨some "a", some "p"⟩⟩ [] = ⟨.ok ⟨.statusOk, 200⟩, [], []⟩ ∧
    signup testHash ⟨.OPTIONS, .ok ⟨some "a", some "p"⟩⟩ [] = ⟨.ok ⟨.statusOk, 200⟩, [], []⟩ :=
  options_ok_without_storage testHash ⟨.OPTIONS, .ok ⟨some "a", some "p"⟩⟩ [] rfl

/-- C4: Identifier uniqueness is an invariant of every operation: starting
from any users-table state whose (non-NULL) emails are pairwise distinct,
after any sequence of login and signup requests (OPTIONS included, since a
request of either kind carries an arbitrary method) every identifier still
appears at most once. -/
theorem uniqueEmails_invariant_run (hl : HashLib) (db : DB) (ops : List Op)
    (h : uniqueEmails db) : uniqueEmails (run hl db ops) :=
  run_preserves_uniqueEmails hl ops db h

/-- Witness for C4 at a concrete state and request sequence (a duplicate
signup, a fresh signup and a login). -/
theorem uniqueEmails_invariant_run_witness :
    uniqueEmails [(⟨some "a", "Hx"⟩ : Row)] ∧
    uniqueEmails (run testHash [(⟨some "a", "Hx"⟩ : Row)]
      [.signupReq ⟨.POST, .ok ⟨some "a", some "p"⟩⟩,
       .signupReq ⟨.POST, .ok ⟨some "b", some "q"⟩⟩,
       .loginReq ⟨.POST, .ok ⟨some "b", some "q"⟩⟩]) :=
  ⟨by unfold uniqueEmails; decide,
   uniqueEmails_invariant_run testHash [(⟨some "a", "Hx"⟩ : Row)]
     [.signupReq ⟨.POST, .ok ⟨some "a", some "p"⟩⟩,
      .signupReq ⟨.POST, .ok ⟨some "b", some "q"⟩⟩,
      .loginReq ⟨.POST, .ok ⟨some "b", some "q"⟩⟩] (by unfold uniqueEmails; decide)⟩

/-- C10: Signup is atomic on conflict: when signup answers 409 because the
identifier already exists, the users table is unchanged, so in particular the
existing row keeps its original stored hash (first write wins). -/
theorem signup_conflict_preserves_table (hl : HashLib) (req : Request) (db : DB)
    (resp : Response) (hr : (signup hl req db).resp = .ok resp)
    (h409 : resp.status = 409) :
    (signup hl req db).db = db ∧
    ∀ u : Option String, lookupPassword u ((signup hl req db).db) = lookupPassword u db := by
  have hdb : (signup hl req db).db = db := by
    rcases req with ⟨m, b⟩
    cases m <;> cases b <;> simp only [signup] at hr ⊢
    case mk.POST.ok creds =>
      revert hr
      split
      · intro _
        rfl
      · split
        · intro hr
          injection hr with h
          subst h
          exact absurd h409 (by decide)
        · intro _
          rfl
  exact ⟨hdb, fun u => by rw [hdb]⟩

/-- Witness for C10 at a concrete duplicate signup. -/
theorem signup_conflict_preserves_table_witness :
    (signup testHash ⟨.POST, .ok ⟨some "a", some "p"⟩⟩ [⟨some "a", "Hq"⟩]).db
      = [(⟨some "a", "Hq"⟩ : Row)] ∧
    ∀ u : Option String,
      lookupPassword u ((signup testHash ⟨.POST, .ok ⟨some "a", some "p"⟩⟩ [⟨some "a", "Hq"⟩]).db)
        = lookupPassword u [(⟨some "a", "Hq"⟩ : Row)] :=
  signup_conflict_preserves_table testHash ⟨.POST, .ok ⟨some "a", some "p"⟩⟩
    [⟨some "a", "Hq"⟩] ⟨.userExists, 409⟩ rfl rfl

/-- C8 (evidence of the divergence): on the conflict path of signup the
storage connection opened inside the try block is never closed: at a concrete
duplicate signup the handler answers 409 while its event trace holds the
connection open with no matching close.  On every other completed path the
trace is balanced, so the claim fails exactly here. -/
theorem signup_conflict_leaves_connection_open :
    (signup testHash ⟨.POST, .ok ⟨some "a", some "p"⟩⟩ [⟨some "a", "Hq"⟩]).resp
      = .ok ⟨.userExists, 409⟩ ∧
    (signup testHash ⟨.POST, .ok ⟨some "a", some "p"⟩⟩ [⟨some "a", "Hq"⟩]).trace
      = [.openConn] ∧
    Event.closeConn ∉ (signup testHash ⟨.POST, .ok ⟨some "a", some "p"⟩⟩ [⟨some "a", "Hq"⟩]).trace := by
  refine ⟨rfl, rfl, ?_⟩
  decide


/-! ### Further helper lemmas -/

theorem insertUser_none_eq (hp : String) (db : DB) :
    insertUser none hp db = .ok (db ++ [⟨none, hp⟩]) := rfl

theorem insertUser_some_ok (u hp : String) (db : DB)
    (hnone : db.find? (fun r => r.email == some u) = none) :
    insertUser (some u) hp db = .ok (db ++ [⟨some u, hp⟩]) := by
  simp only [insertUser, hnone]

theorem insertUser_some_error (u hp : String) (db : DB) (r : Row)
    (hr : r ∈ db) (he : r.email = some u) : insertUser (some u) hp db = .error () := by
  simp only [insertUser]
  rcases Option.isSome_iff_exists.mp (find_email_isSome_of_mem u db r hr he) with ⟨r2, hr2⟩
  rw [hr2]

theorem find_email_none_of_not_mem (u : String) (db : DB)
    (h : ¬ ∃ r ∈ db, r.email = some u) :
    db.find? (fun r => r.email == some u) = none := by
  rw [List.find?_eq_none]
  intro r hr hcontra
  exact h ⟨r, hr, by simpa using hcontra⟩

theorem signup_resp_gen_ok (hl : HashLib) (creds : Creds) (db : DB) (resp : Response)
    (hr : (signup hl ⟨.POST, .ok creds⟩ db).resp = .ok resp) :
    ∃ hp, genPasswordHash hl creds.password = .ok hp := by
  revert hr
  simp only [signup]
  split
  · intro hr
    exact Except.noConfusion hr
  · rename_i hp hgen
    intro _
    exact ⟨hp, hgen⟩

/-- C1: For every login POST request that produces a response, the response
is 401 Unauthorized with the invalid-credentials message exactly when no user
row matches the submitted identifier or the submitted secret does not verify
against the stored hash of the matched row; when the credentials do verify,
the response is 200 carrying an access token for the identifier. -/
theorem login_unauthorized_iff_auth_fails (hl : HashLib) (req : Request) (db : DB)
    (creds : Creds) (resp : Response) (hm : req.method = .POST)
    (hb : req.body = .ok creds) (hr : (login hl req db).resp = .ok resp) :
    ((resp.status = 401 ∧ resp.body = .invalidCredentials) ↔ ¬ authOk hl creds db) ∧
    (authOk hl creds db → resp = ⟨.accessToken ⟨creds.username⟩, 200⟩) := by
  rcases req with ⟨m, b⟩
  cases hm
  cases hb
  simp only [login] at hr
  revert hr
  split
  · rename_i hlk
    intro hr
    injection hr with h
    subst h
    have hna : ¬ authOk hl creds db := by
      rintro ⟨stored, p, hstored, _, _⟩
      rw [hlk] at hstored
      exact Option.noConfusion hstored
    exact ⟨⟨fun _ => hna, fun _ => ⟨rfl, rfl⟩⟩, fun hak => absurd hak hna⟩
  · rename_i stored hlk
    split
    · intro hr
      exact Except.noConfusion hr
    · rename_i hc
      intro hr
      injection hr with h
      subst h
      have hak : authOk hl creds db := by
        unfold checkPasswordHash at hc
        cases hp : creds.password with
        | none =>
          rw [hp] at hc
          exact Except.noConfusion hc
        | some p =>
          rw [hp] at hc
          injection hc with h
          exact ⟨stored, p, hlk, hp, h⟩
      refine ⟨⟨fun h401 => ?_, fun hna => absurd hak hna⟩, fun _ => rfl⟩
      simp at h401
    · rename_i hc
      intro hr
      injection hr with h
      subst h
      have hna : ¬ authOk hl creds db := by
        rintro ⟨stored2, p, hstored2, hp, hchk⟩
        rw [hlk] at hstored2
        injection hstored2 with h2
        subst h2
        unfold checkPasswordHash at hc
        rw [hp] at hc
        injection hc with h3
        rw [hchk] at h3
        exact Bool.noConfusion h3
      exact ⟨⟨fun _ => hna, fun _ => ⟨rfl, rfl⟩⟩, fun hak => absurd hak hna⟩

/-- Witness for C1 at a concrete request with matching credentials. -/
theorem login_unauthorized_iff_auth_fails_witness :
    (((⟨.accessToken ⟨some "a"⟩, 200⟩ : Response).status = 401 ∧
        (⟨.accessToken ⟨some "a"⟩, 200⟩ : Response).body = .invalidCredentials) ↔
      ¬ authOk testHash ⟨some "a", some "p"⟩ [⟨some "a", "Hp"⟩]) ∧
    (authOk testHash ⟨some "a", some "p"⟩ [⟨some "a", "Hp"⟩] →
      (⟨.accessToken ⟨some "a"⟩, 200⟩ : Response)
        = ⟨.accessToken ⟨(⟨some "a", some "p"⟩ : Creds).username⟩, 200⟩) :=
  login_unauthorized_iff_auth_fails testHash ⟨.POST, .ok ⟨some "a", some "p"⟩⟩
    [⟨some "a", "Hp"⟩] ⟨some "a", some "p"⟩ ⟨.accessToken ⟨some "a"⟩, 200⟩ rfl rfl rfl

/-- C2: For every signup POST request that produces a response, the response
is 409 Conflict exactly when a user row with the submitted identifier already
exists (the storage uniqueness violation is caught); otherwise the handler
appends a new row holding the hashed secret and answers 201 Created.  In
particular a second signup with the same identifier answers Conflict. -/
theorem signup_conflict_iff_duplicate (hl : HashLib) (req : Request) (db : DB)
    (creds : Creds) (resp : Response) (hm : req.method = .POST)
    (hb : req.body = .ok creds) (hr : (signup hl req db).resp = .ok resp) :
    ((resp.status = 409 ∧ resp.body = .userExists) ↔
      ∃ u, creds.username = some u ∧ ∃ r ∈ db, r.email = some u) ∧
    ((¬ ∃ u, creds.username = some u ∧ ∃ r ∈ db, r.email = some u) →
      resp = ⟨.userCreated, 201⟩ ∧
      ∃ hp, genPasswordHash hl creds.password = .ok hp ∧
        (signup hl req db).db = db ++ [⟨creds.username, hp⟩]) ∧
    (∀ u, creds.username = some u →
      (signup hl req ((signup hl req db).db)).resp = .ok ⟨.userExists, 409⟩) := by
  rcases req with ⟨m, b⟩
  cases hm
  cases hb
  obtain ⟨hp, hgen⟩ := signup_resp_gen_ok hl creds db resp hr
  have hpost : ∀ d : DB, signup hl ⟨.POST, .ok creds⟩ d =
      match insertUser creds.username hp d with
      | .ok db2 => ⟨.ok ⟨.userCreated, 201⟩, db2, [.openConn, .closeConn]⟩
      | .error _ => ⟨.ok ⟨.userExists, 409⟩, d, [.openConn]⟩ := by
    intro d
    simp only [signup, hgen]
  cases hcu : creds.username with
  | none =>
    have hsg : signup hl ⟨.POST, .ok creds⟩ db
        = ⟨.ok ⟨.userCreated, 201⟩, db ++ [⟨none, hp⟩], [.openConn, .closeConn]⟩ := by
      rw [hpost db]
      simp only [hcu, insertUser_none_eq]
    rw [hsg] at hr
    injection hr with h
    subst h
    refine ⟨?_, ?_, ?_⟩
    · constructor
      · rintro ⟨h409, -⟩
        simp at h409
      · rintro ⟨u, hu, -⟩
        exact Option.noConfusion hu
    · intro _
      refine ⟨rfl, hp, hgen, ?_⟩
      rw [hsg]
    · intro u hu
      exact Option.noConfusion hu
  | some u =>
    by_cases hex : ∃ r ∈ db, r.email = some u
    · obtain ⟨r, hrmem, hremail⟩ := hex
      have hins := insertUser_some_error u hp db r hrmem hremail
      have hsg : signup hl ⟨.POST, .ok creds⟩ db
          = ⟨.ok ⟨.userExists, 409⟩, db, [.openConn]⟩ := by
        rw [hpost db]
        simp only [hcu, hins]
      rw [hsg] at hr
      injection hr with h
      subst h
      refine ⟨?_, ?_, ?_⟩
      · exact ⟨fun _ => ⟨u, rfl, r, hrmem, hremail⟩, fun _ => ⟨rfl, rfl⟩⟩
      · intro hnd
        exact absurd ⟨u, rfl, r, hrmem, hremail⟩ hnd
      · intro u2 hu2
        injection hu2 with he
        subst he
        simp only [hsg]
    · have hfind := find_email_none_of_not_mem u db hex
      have hins := insertUser_some_ok u hp db hfind
      have hsg : signup hl ⟨.POST, .ok creds⟩ db
          = ⟨.ok ⟨.userCreated, 201⟩, db ++ [⟨some u, hp⟩], [.openConn, .closeConn]⟩ := by
        rw [hpost db]
        simp only [hcu, hins]
      rw [hsg] at hr
      injection hr with h
      subst h
      refine ⟨?_, ?_, ?_⟩
      · constructor
        · rintro ⟨h409, -⟩
          simp at h409
        · rintro ⟨u2, hu2, hex2⟩
          injection hu2 with he
          subst he
          exact absurd hex2 hex
      · intro _
        refine ⟨rfl, hp, hgen, ?_⟩
        rw [hsg]
      · intro u2 hu2
        injection hu2 with he
        subst he
        have hmem2 : (⟨some u, hp⟩ : Row) ∈ db ++ [(⟨some u, hp⟩ : Row)] := by simp
        have hins2 := insertUser_some_error u hp (db ++ [⟨some u, hp⟩]) ⟨some u, hp⟩ hmem2 rfl
        simp only [hsg]
        simp only [hpost, hcu, hins2]

/-- Witness for C2 at a concrete duplicate signup. -/
theorem signup_conflict_iff_duplicate_witness :
    (((⟨.userExists, 409⟩ : Response).status = 409 ∧
        (⟨.userExists, 409⟩ : Response).body = .userExists) ↔
      ∃ u, (⟨some "a", some "p"⟩ : Creds).username = some u ∧
        ∃ r ∈ [(⟨some "a", "Hq"⟩ : Row)], r.email = some u) ∧
    ((¬ ∃ u, (⟨some "a", some "p"⟩ : Creds).username = some u ∧
        ∃ r ∈ [(⟨some "a", "Hq"⟩ : Row)], r.email = some u) →
      (⟨.userExists, 409⟩ : Response) = ⟨.userCreated, 201⟩ ∧
      ∃ hp, genPasswordHash testHash (⟨some "a", some "p"⟩ : Creds).password = .ok hp ∧
        (signup testHash ⟨.POST, .ok ⟨some "a", some "p"⟩⟩ [⟨some "a", "Hq"⟩]).db
          = [(⟨some "a", "Hq"⟩ : Row)] ++ [⟨(⟨some "a", some "p"⟩ : Creds).username, hp⟩]) ∧
    (∀ u, (⟨some "a", some "p"⟩ : Creds).username = some u →
      (signup testHash ⟨.POST, .ok ⟨some "a", some "p"⟩⟩
        ((signup testHash ⟨.POST, .ok ⟨some "a", some "p"⟩⟩ [⟨some "a", "Hq"⟩]).db)).resp
        = .ok ⟨.userExists, 409⟩) :=
  signup_conflict_iff_duplicate testHash ⟨.POST, .ok ⟨some "a", some "p"⟩⟩ [⟨some "a", "Hq"⟩]
    ⟨some "a", some "p"⟩ ⟨.userExists, 409⟩ rfl rfl rfl

/-- C3: For every identifier absent from the users table and every submitted
secret accepted by the hashing library round trip, signup succeeds with 201
and a subsequent login with the same identifier and secret succeeds with 200
and a token bound to the identifier. -/
theorem signup_then_login_roundtrip (hl : HashLib) (db : DB) (u p : String)
    (hsound : hl.check (hl.gen p) p = true)
    (hfresh : lookupPassword (some u) db = none) :
    (signup hl ⟨.POST, .ok ⟨some u, some p⟩⟩ db).resp = .ok ⟨.userCreated, 201⟩ ∧
    (login hl ⟨.POST, .ok ⟨some u, some p⟩⟩ ((signup hl ⟨.POST, .ok ⟨some u, some p⟩⟩ db).db)).resp
      = .ok ⟨.accessToken ⟨some u⟩, 200⟩ := by
  have hfind : db.find? (fun r => r.email == some u) = none := by
    unfold lookupPassword at hfresh
    exact Option.map_eq_none'.mp hfresh
  have hins : insertUser (some u) (hl.gen p) db = .ok (db ++ [⟨some u, hl.gen p⟩]) :=
    insertUser_some_ok u (hl.gen p) db hfind
  have hsg : signup hl ⟨.POST, .ok ⟨some u, some p⟩⟩ db
      = ⟨.ok ⟨.userCreated, 201⟩, db ++ [⟨some u, hl.gen p⟩], [.openConn, .closeConn]⟩ := by
    simp only [signup, genPasswordHash, hins]
  rw [hsg]
  refine ⟨rfl, ?_⟩
  have hlk : lookupPassword (some u) (db ++ [⟨some u, hl.gen p⟩]) = some (hl.gen p) :=
    lookupPassword_append_self u (hl.gen p) db hfresh
  simp only [login, hlk, checkPasswordHash, hsound]

/-- Witness for C3 at a concrete fresh signup followed by a login. -/
theorem signup_then_login_roundtrip_witness :
    (signup testHash ⟨.POST, .ok ⟨some "a", some "p"⟩⟩ []).resp = .ok ⟨.userCreated, 201⟩ ∧
    (login testHash ⟨.POST, .ok ⟨some "a", some "p"⟩⟩
        ((signup testHash ⟨.POST, .ok ⟨some "a", some "p"⟩⟩ []).db)).resp
      = .ok ⟨.accessToken ⟨some "a"⟩, 200⟩ :=
  signup_then_login_roundtrip testHash [] "a" "p" rfl rfl

/-- C6: Whenever login answers with an access token, the status is 200 and
the token identity equals the username of the request body; a token-issuance
event in the trace forces that same successful response, so no failing
request issues a token; and signup never issues a token at all. -/
theorem token_bound_to_identifier (hl : HashLib) (req : Request) (db : DB) :
    (∀ resp t, (login hl req db).resp = .ok resp → resp.body = .accessToken t →
      resp.status = 200 ∧ ∃ creds, req.body = .ok creds ∧ t.identity = creds.username) ∧
    (∀ idn, Event.issueToken idn ∈ (login hl req db).trace →
      (login hl req db).resp = .ok ⟨.accessToken ⟨idn⟩, 200⟩) ∧
    (∀ idn, Event.issueToken idn ∉ (signup hl req db).trace) := by
  rcases req with ⟨m, b⟩
  refine ⟨?_, ?_, ?_⟩
  · intro resp t hr hbody
    cases m
    case OPTIONS =>
      simp only [login] at hr
      injection hr with h
      subst h
      exact RespBody.noConfusion hbody
    case POST =>
      cases b with
      | error e =>
        simp only [login] at hr
        exact Except.noConfusion hr
      | ok creds =>
        simp only [login] at hr
        revert hr
        split
        · intro hr
          injection hr with h
          subst h
          exact RespBody.noConfusion hbody
        · split
          · intro hr
            exact Except.noConfusion hr
          · intro hr
            injection hr with h
            subst h
            injection hbody with h2
            exact ⟨rfl, creds, rfl, by rw [← h2]⟩
          · intro hr
            injection hr with h
            subst h
            exact RespBody.noConfusion hbody
  · intro idn hmem
    cases m
    case OPTIONS =>
      simp only [login] at hmem
      simp at hmem
    case POST =>
      cases b with
      | error e =>
        simp only [login] at hmem
        simp at hmem
      | ok creds =>
        simp only [login] at hmem ⊢
        revert hmem
        split
        · intro hmem
          simp at hmem
        · split
          · intro hmem
            simp at hmem
          · intro hmem
            simp at hmem
            subst hmem
            rfl
          · intro hmem
            simp at hmem
  · intro idn
    cases m
    case OPTIONS => simp [signup]
    case POST =>
      cases b with
      | error e => simp [signup]
      | ok creds =>
        simp only [signup]
        split
        · simp
        · split
          · simp
          · simp

/-- Witness for C6 at a concrete successful login. -/
theorem token_bound_to_identifier_witness :
    (⟨.accessToken ⟨some "a"⟩, 200⟩ : Response).status = 200 ∧
    ∃ creds, (⟨.POST, .ok ⟨some "a", some "p"⟩⟩ : Request).body = .ok creds ∧
      (⟨some "a"⟩ : Token).identity = creds.username :=
  (token_bound_to_identifier testHash ⟨.POST, .ok ⟨some "a", some "p"⟩⟩ [⟨some "a", "Hp"⟩]).1
    ⟨.accessToken ⟨some "a"⟩, 200⟩ ⟨some "a"⟩ rfl rfl

/-- C7: Failures outside the two-entry taxonomy are not handled by either
handler: a malformed body propagates the parse exception out of both handlers
before any storage access, and a missing password propagates the hashing or
verification exception (from signup always, from login whenever a user row
was found); no such failure is converted into a 401 or 409 response. -/
theorem nontaxonomy_failures_propagate (hl : HashLib) (req : Request) (db : DB)
    (hm : req.method = .POST) :
    (∀ e : Exn, req.body = .error e →
      login hl req db = ⟨.error e, db, []⟩ ∧ signup hl req db = ⟨.error e, db, []⟩) ∧
    (∀ creds : Creds, req.body = .ok creds → creds.password = none →
      (signup hl req db).resp = .error .typeError ∧
      ∀ stored, lookupPassword creds.username db = some stored →
        (login hl req db).resp = .error .typeError) := by
  rcases req with ⟨m, b⟩
  cases hm
  refine ⟨?_, ?_⟩
  · intro e hb
    cases hb
    exact ⟨rfl, rfl⟩
  · intro creds hb hpw
    cases hb
    constructor
    · simp only [signup, genPasswordHash, hpw]
    · intro stored hlk
      simp only [login, hlk, checkPasswordHash, hpw]

/-- Witness for C7 at a concrete malformed-body POST request. -/
theorem nontaxonomy_failures_propagate_witness :
    login testHash ⟨.POST, .error .badRequest⟩ [] = ⟨.error .badRequest, [], []⟩ ∧
    signup testHash ⟨.POST, .error .badRequest⟩ [] = ⟨.error .badRequest, [], []⟩ :=
  (nontaxonomy_failures_propagate testHash ⟨.POST, .error .badRequest⟩ [] rfl).1 .badRequest rfl

end Auth
